import Mathlib

/-!
Verification of the scp helper package (src/scp.go, src/helper.go).

The embedding models, at the byte level, the SCP sink-protocol encoder
(`copy`, src/scp.go lines 33-47), the helper delegate with its gzip branch
and flags (`Copy`, `SetLimitKB`, `SetGzipEnable`, src/helper.go), the retry
loops (`MustCopy`, `TryCopy`), the connection manager (`newSession`), the
path-opening wrappers (`CopyPath`, `MustCopyPath`, `TryCopyPath`) and the
host-key policy of `Dial`.  Bytes are `Nat` values; machine integers of the
source that the claims exercise stay in their mathematical range, with Go's
`int` modelled by `Int` where its sign matters.
-/

namespace Scp

/-! ## Byte-level rendering helpers (fmt verbs used by the source) -/

/-- Bytes of an ASCII string, as the Go source writes it with `fmt`. -/
def strBytes (s : String) : List Nat := s.toList.map Char.toNat

/-- Base-`b` digits of `n`, least significant first.  The first argument is
fuel; `digitsRev` supplies `n` itself, which is always enough since the
argument shrinks by division each step. -/
def digitsAux (b : Nat) : Nat → Nat → List Nat
  | 0, _ => []
  | fuel + 1, n => if n = 0 then [] else n % b :: digitsAux b fuel (n / b)

/-- Base-`b` digits of `n`, least significant first (empty for `0`). -/
def digitsRev (b n : Nat) : List Nat := digitsAux b n n

/-- ASCII bytes of `n` in decimal: Go's `%d` verb on a non-negative value. -/
def decBytes (n : Nat) : List Nat :=
  if n = 0 then [48] else (digitsRev 10 n).reverse.map (fun d => 48 + d)

/-- ASCII bytes of `n` in octal with a leading zero: Go's `%#o` verb
(used for the permission mode in the control line). `%#o` of `0` is `"0"`. -/
def goAltOctBytes (n : Nat) : List Nat :=
  if n = 0 then [48] else 48 :: (digitsRev 8 n).reverse.map (fun d => 48 + d)

/-! ## Protocol encoder (src/scp.go lines 33-47) -/

/-- The SCP control line `fmt.Fprintf(w, "C%#o %d %s\n", mode, size, fileName)`
as a byte list: `C`, octal mode with leading zero, space, decimal size,
space, file name, newline. -/
def ctrlLine (mode size : Nat) (fileName : String) : List Nat :=
  [67] ++ goAltOctBytes mode ++ [32] ++ decBytes size ++ [32] ++
    strBytes fileName ++ [10]

/-- What one call of the package-private `copy` does to its session: the
byte stream written to the session's stdin pipe (control line, then
`io.Copy(w, contents)` — all of `contents`, the pipe writer does not
truncate at `size` — then the single `0x00` trailer), and the remote
command `fmt.Sprintf("scp %s -t %s", flags, destination)` that is run. -/
structure SessionOut where
  stream : List Nat
  cmd : String
deriving DecidableEq

/-- Shallow embedding of `copy` (src/scp.go lines 33-47). -/
def copy (size mode : Nat) (fileName : String) (contents : List Nat)
    (destination : String) (flags : String) : SessionOut :=
  { stream := ctrlLine mode size fileName ++ contents ++ [0]
    cmd := "scp " ++ flags ++ " -t " ++ destination }

/-! ## filepath.Base / filepath.Dir (Go standard library, '/' separator)

Modelled from their documented behaviour on cleaned slash-separated paths,
which is all the helper feeds them. -/

/-- Go `filepath.Base` for '/'-separated paths. -/
def filepathBase (p : String) : String :=
  if p = "" then "."
  else
    let cs := p.toList.reverse.dropWhile (fun c => c = '/')
    if cs.isEmpty then "/"
    else String.mk (cs.takeWhile (fun c => c ≠ '/')).reverse

/-- Go `filepath.Dir` for cleaned '/'-separated paths. -/
def filepathDir (p : String) : String :=
  let cs := p.toList.reverse.dropWhile (fun c => c = '/')
  let rest := (cs.dropWhile (fun c => c ≠ '/')).dropWhile (fun c => c = '/')
  if rest.isEmpty then (if p.toList.head? = some '/' then "/" else ".")
  else String.mk rest.reverse

/-! ## The helper delegate (src/helper.go) -/

/-- The mutable configuration of `scpHelperDelegate` that the copy path
reads: the flags string and the gzip switch (src/helper.go lines 77-83). -/
structure HelperState where
  flags : String
  gzip : Bool
deriving DecidableEq

/-- `NewHelper` (src/helper.go lines 85-88): Go zero values for the
delegate's fields. -/
def newHelper : HelperState := { flags := "", gzip := false }

/-- `SetLimitKB` (src/helper.go lines 221-223):
`s.flags = fmt.Sprintf("-l %d", kbs*8)`. -/
def SetLimitKB (st : HelperState) (kbs : Int) : HelperState :=
  { st with flags := "-l " ++ toString (kbs * 8) }

/-- `SetGzipEnable` (src/helper.go lines 225-227). -/
def SetGzipEnable (st : HelperState) (enable : Bool) : HelperState :=
  { st with gzip := enable }

/-- The external `compress/gzip` codec, abstract.  Per its documented
contract, `Write`-all-then-`Close` emits a complete gzip stream
(`closed`), while `Write`-all-then-`Flush` emits the compressed data
without the DEFLATE final block or the gzip footer (`flushed`);
`inflate` is a strict decompressor of complete streams. -/
structure GzipCodec where
  flushed : List Nat → List Nat
  closed : List Nat → List Nat
  inflate : List Nat → Option (List Nat)

/-- A concrete codec satisfying the documented contract, used to witness
the theorems that hypothesise it. -/
def toyCodec : GzipCodec :=
  { flushed := fun bs => 0 :: bs
    closed := fun bs => 1 :: bs
    inflate := fun l =>
      match l with
      | 1 :: rest => some rest
      | _ => none }

/-- The gzip branch of `Copy` (src/helper.go lines 127-147): append `.gz`
to the name, write the whole source through the gzip writer, call `Flush`
(never `Close`), and take the buffer's contents and length as the new
payload and size.  Result: `(new name, payload, new size)`. -/
def gzipAdapt (codec : GzipCodec) (name : String) (r : List Nat) :
    String × List Nat × Nat :=
  (name ++ ".gz", codec.flushed r, (codec.flushed r).length)

/-- `os.ModePerm` = 0o777, the mode the helper hardcodes in its call to
`copy` (src/helper.go line 148). -/
def modePerm : Nat := 0o777

/-- Shallow embedding of the helper's `Copy` (src/helper.go lines
114-149), after a session has been obtained: splits `dstfile` into base
name and directory, optionally applies the gzip branch, and calls `copy`
with `os.ModePerm` and the configured flags. -/
def Copy (st : HelperState) (codec : GzipCodec) (r : List Nat) (size : Nat)
    (dstfile : String) : SessionOut :=
  let name := filepathBase dstfile
  let path := filepathDir dstfile
  if st.gzip then
    let a := gzipAdapt codec name r
    copy a.2.2 modePerm a.1 a.2.1 path st.flags
  else
    copy size modePerm name r path st.flags

/-! ## Retry loops (src/helper.go lines 151-182)

The loops call `s.Copy` once per iteration; whether that call fails
depends on the network, so the loops are embedded over an abstract
attempt function indexed by the attempt number (first call is attempt 1).
A `time.Sleep` of `d` seconds is recorded as the value `d` in the trace
(the iteration that does not sleep records `0`). -/

/-- The sleep chosen at the top of a `MustCopy` iteration (src/helper.go
lines 155-159): one minute when `retryTimes > 10`, otherwise `retryTimes`
seconds (zero on the first iteration). -/
def sleepFor (retryTimes : Nat) : Nat :=
  if retryTimes > 10 then 60 else if retryTimes > 0 then retryTimes else 0

/-- Fuel-bounded unfolding of the unconditional `MustCopy` loop
(src/helper.go lines 151-165).  Returns the successful attempt number
(`none` while the loop is still running after `fuel` iterations) and the
trace of sleeps, one entry per iteration, before that iteration's
attempt. -/
def MustCopyAux (attempt : Nat → Bool) : Nat → Nat → List Nat →
    Option Nat × List Nat
  | 0, _, sleeps => (none, sleeps)
  | fuel + 1, r, sleeps =>
    if attempt (r + 1) then (some (r + 1), sleeps ++ [sleepFor r])
    else MustCopyAux attempt fuel (r + 1) (sleeps ++ [sleepFor r])

/-- `MustCopy`, observed for `fuel` iterations. -/
def MustCopy (attempt : Nat → Bool) (fuel : Nat) : Option Nat × List Nat :=
  MustCopyAux attempt fuel 0 []

/-- The sleep chosen at the top of a `TryCopy` iteration that does not
return (src/helper.go lines 172-176): `retryTimes` seconds, zero on the
first iteration — `TryCopy` has no one-minute branch. -/
def trySleepFor (retryTimes : Nat) : Nat :=
  if retryTimes > 0 then retryTimes else 0

/-- Result of `TryCopy`: success, or the `&ErrTimes{times: retryTimes,
err: err}` it builds (src/helper.go line 173), where `err` is the
function-level variable. -/
inductive TryResult (E : Type) where
  | ok : TryResult E
  | errTimes (times : Nat) (lastErr : Option E) : TryResult E
deriving DecidableEq

/-- The `TryCopy` loop (src/helper.go lines 167-182).  The loop runs
exactly until the guard `retryTimes > trys` fires, so the fuel supplied by
`TryCopy` below is exact.  `errOuter` is the function-level `var err
error`: the loop body declares its own `err := s.Copy(...)`, shadowing it,
so `errOuter` is never assigned.  Returns (result, attempts made, sleep
trace). -/
def TryCopyAux (attempt : Nat → Option E) : Nat → Nat → Option E → Nat →
    List Nat → TryResult E × Nat × List Nat
  | 0, r, errOuter, made, sleeps => (.errTimes r errOuter, made, sleeps)
  | fuel + 1, r, errOuter, made, sleeps =>
    match attempt (r + 1) with
    | none => (.ok, made + 1, sleeps ++ [trySleepFor r])
    | some _ => TryCopyAux attempt fuel (r + 1) errOuter (made + 1)
        (sleeps ++ [trySleepFor r])

/-- `TryCopy` (src/helper.go lines 167-182): `retryTimes` starts at 0 and
the guard `retryTimes > trys` first holds after `max (trys+1) 0`
iterations, which is the fuel supplied here; `trys` is a Go `int`. -/
def TryCopy (attempt : Nat → Option E) (trys : Int) :
    TryResult E × Nat × List Nat :=
  TryCopyAux attempt (trys + 1).toNat 0 none 0 []

/-! ## Connection manager (src/helper.go lines 90-112)

`newSession` is embedded as a state transformer.  Clients and sessions are
identified by `Nat`; the environment (`World`) is an oracle giving the
result of the n-th `Dial` call and of the n-th `NewSession` call on a given
client, and `MgrState` records the cached client together with how many
dial and session calls have been made.  A failing Go `Dial` returns a nil
client, so `s.client, err = s.dialer.Dial()` clears the cache on dial
failure. -/

/-- Oracle for the transport layer: `dialR n` is the result of the
`(n+1)`-th `Dial`, `sessR n c` the result of the `(n+1)`-th `NewSession`,
made on client `c`.  Errors are `Nat` codes. -/
structure World where
  dialR : Nat → Except Nat Nat
  sessR : Nat → Nat → Except Nat Nat

/-- The manager's mutable state: the cached `client` field and the call
counters that index the oracle. -/
structure MgrState where
  client : Option Nat
  dials : Nat
  sesss : Nat
deriving DecidableEq

/-- Lines 100-111 of `newSession`: try `NewSession` on client `c` (assumed
cached in `st`); on failure close and clear the client, redial once, and
try `NewSession` on the new client.  A failed redial leaves the client
cleared; a failed second `NewSession` leaves the freshly dialed client
cached. -/
def sessionWithRedial (w : World) (st : MgrState) (c : Nat) :
    Except Nat Nat × MgrState :=
  match w.sessR st.sesss c with
  | .ok sess => (.ok sess, { st with sesss := st.sesss + 1 })
  | .error _ =>
    let st1 : MgrState := { st with client := none, sesss := st.sesss + 1 }
    match w.dialR st1.dials with
    | .error e => (.error e, { st1 with dials := st1.dials + 1 })
    | .ok c2 =>
      let st2 : MgrState :=
        { st1 with client := some c2, dials := st1.dials + 1 }
      match w.sessR st2.sesss c2 with
      | .ok sess => (.ok sess, { st2 with sesss := st2.sesss + 1 })
      | .error e2 => (.error e2, { st2 with sesss := st2.sesss + 1 })

/-- `newSession` (src/helper.go lines 90-112): dial if no client is
cached (a dial failure returns immediately), then attempt a session with
one redial-and-retry. -/
def newSession (w : World) (st : MgrState) : Except Nat Nat × MgrState :=
  match st.client with
  | some c => sessionWithRedial w st c
  | none =>
    match w.dialR st.dials with
    | .error e => (.error e, { st with dials := st.dials + 1 })
    | .ok c =>
      sessionWithRedial w { st with client := some c, dials := st.dials + 1 } c

/-! ## Path wrappers (src/helper.go lines 184-219)

`openFile` runs `os.Open` then `fd.Stat`; both the open and the stat can
fail.  The filesystem and the downstream copy calls are abstract
parameters (`F` is the file-handle type, `E` the error type). -/

/-- `openFile` (src/helper.go lines 184-195). -/
def openFile {E F : Type} (fsOpen : String → Except E F)
    (fsStat : F → Except E Int) (filename : String) : Except E (F × Int) :=
  match fsOpen filename with
  | .error e => .error e
  | .ok fd =>
    match fsStat fd with
    | .error e => .error e
    | .ok size => .ok (fd, size)

/-- `CopyPath` (src/helper.go lines 197-203): on open success delegate to
`s.Copy` (abstracted as `copyFn`, `none` = nil error), otherwise return
the error. -/
def CopyPath {E F : Type} (fsOpen : String → Except E F)
    (fsStat : F → Except E Int) (copyFn : F → Int → String → Option E)
    (srcfile dstfile : String) : Option E :=
  match openFile fsOpen fsStat srcfile with
  | .ok fs => copyFn fs.1 fs.2 dstfile
  | .error e => some e

/-- Outcome of `MustCopyPath`: it either panics with the open error or
enters `s.MustCopy` with the opened handle and size (and then never
returns an error). -/
inductive MustPathOut (E F : Type) where
  | panicked : E → MustPathOut E F
  | ranMustCopy : F → Int → MustPathOut E F
deriving DecidableEq

/-- `MustCopyPath` (src/helper.go lines 205-211): `panic(err)` on open
failure, otherwise `s.MustCopy(fd, size, dstfile)`. -/
def MustCopyPath {E F : Type} (fsOpen : String → Except E F)
    (fsStat : F → Except E Int) (srcfile _dstfile : String) :
    MustPathOut E F :=
  match openFile fsOpen fsStat srcfile with
  | .error e => .panicked e
  | .ok fs => .ranMustCopy fs.1 fs.2

/-- `TryCopyPath` (src/helper.go lines 213-219): return the open error,
otherwise delegate to `s.TryCopy` (abstracted as `tryFn`). -/
def TryCopyPath {E F : Type} (fsOpen : String → Except E F)
    (fsStat : F → Except E Int) (tryFn : F → Int → String → Int → Option E)
    (srcfile dstfile : String) (trys : Int) : Option E :=
  match openFile fsOpen fsStat srcfile with
  | .error e => some e
  | .ok fs => tryFn fs.1 fs.2 dstfile trys

/-! ## Dialer (src/helper.go lines 41-75) -/

/-- `Dialer` (src/helper.go lines 42-47). -/
structure Dialer where
  SSHUser : String
  SSHFile : String
  SSHPass : String
  SSHAddr : String

/-- The `ssh.ClientConfig` that `Dial` passes to `ssh.Dial`: the user, the
auth-method choice (key file when `SSHFile != ""`, else password), and the
host-key callback.  The callback result is an error option; `none` is the
Go `nil` = accept. -/
structure ClientConfig where
  user : String
  usesKeyFile : Bool
  hostKeyCallback : String → String → List Nat → Option String

/-- The config built by `Dial` (src/helper.go lines 50-75): its
`HostKeyCallback` is the literal `func(hostname, remote, key) error
{ return nil }`. -/
def dialConfig (d : Dialer) : ClientConfig :=
  { user := d.SSHUser
    usesKeyFile := d.SSHFile != ""
    hostKeyCallback := fun _ _ _ => none }

/-! ## Auxiliary definitions used in the statements -/

/-- Split a byte list at its first newline (byte 10): the line before it
and the remainder after it. -/
def splitLine : List Nat → Option (List Nat × List Nat)
  | [] => none
  | b :: bs =>
    if b = 10 then some ([], bs)
    else
      match splitLine bs with
      | some p => some (b :: p.1, p.2)
      | none => none

/-- The control line without its terminating newline: `C`, octal mode with
leading zero, space, decimal size, space, file name. -/
def ctrlHead (mode size : Nat) (fileName : String) : List Nat :=
  [67] ++ goAltOctBytes mode ++ [32] ++ decBytes size ++ [32] ++
    strBytes fileName

/-- The backoff schedule the claim asserts (following the claim's words,
for comparison): no delay before attempt 1, `N` time-units before attempt
`N` for `N` in 2..10, a one-minute ceiling beyond. -/
def claimedDelay (n : Nat) : Nat :=
  if n = 1 then 0 else if n ≤ 10 then n else 60

/-- Concrete transport oracle for the double-session-failure scenario:
every `NewSession` call fails (the `(n+1)`-th with error `100 + n`) and
every dial succeeds, the first redial yielding client `2`. -/
def w0 : World :=
  { dialR := fun _ => .ok 2
    sessR := fun n _ => .error (100 + n) }

/-- Manager state with client `1` cached, after 5 dials and no session
calls. -/
def st0 : MgrState := { client := some 1, dials := 5, sesss := 0 }

/-! # Supporting lemmas -/

lemma splitLine_append (xs ys : List Nat) (h : 10 ∉ xs) :
    splitLine (xs ++ 10 :: ys) = some (xs, ys) := by
  induction xs with
  | nil => simp [splitLine]
  | cons x xs ih =>
    have hx : x ≠ 10 := by
      intro hx
      exact h (by simp [hx])
    have hmem : 10 ∉ xs := fun hm => h (List.mem_cons_of_mem _ hm)
    simp [splitLine, hx, ih hmem]

lemma digitsAux_lt (b : Nat) (hb : 0 < b) :
    ∀ fuel n d, d ∈ digitsAux b fuel n → d < b := by
  intro fuel
  induction fuel with
  | zero =>
    intro n d hd
    simp [digitsAux] at hd
  | succ f ih =>
    intro n d hd
    by_cases hn : n = 0
    · simp [digitsAux, hn] at hd
    · simp only [digitsAux, hn, if_false, List.mem_cons] at hd
      rcases hd with hd | hd
      · exact hd ▸ Nat.mod_lt _ hb
      · exact ih _ _ hd

lemma decBytes_mem (n d : Nat) (hd : d ∈ decBytes n) : 48 ≤ d ∧ d < 58 := by
  unfold decBytes at hd
  by_cases hn : n = 0
  · simp [hn] at hd
    omega
  · simp only [hn, if_false, List.mem_map, List.mem_reverse] at hd
    obtain ⟨d0, hd0, rfl⟩ := hd
    have := digitsAux_lt 10 (by omega) n n d0 hd0
    omega

lemma goAltOctBytes_mem (n d : Nat) (hd : d ∈ goAltOctBytes n) :
    48 ≤ d ∧ d < 58 := by
  unfold goAltOctBytes at hd
  by_cases hn : n = 0
  · simp [hn] at hd
    omega
  · simp only [hn, if_false, List.mem_cons, List.mem_map,
      List.mem_reverse] at hd
    rcases hd with hd | ⟨d0, hd0, rfl⟩
    · omega
    · have := digitsAux_lt 8 (by omega) n n d0 hd0
      omega

lemma ten_not_mem_ctrlHead (mode size : Nat) (name : String)
    (h : 10 ∉ strBytes name) : 10 ∉ ctrlHead mode size name := by
  intro hm
  simp only [ctrlHead, List.append_assoc, List.mem_append,
    List.mem_singleton, List.mem_cons, List.not_mem_nil, or_false] at hm
  rcases hm with h1 | h1 | h1 | h1 | h1 | h1
  · exact absurd h1 (by decide)
  · have := goAltOctBytes_mem mode 10 h1
    omega
  · exact absurd h1 (by decide)
  · have := decBytes_mem size 10 h1
    omega
  · exact absurd h1 (by decide)
  · exact h h1

lemma ctrlLine_eq_head (mode size : Nat) (name : String) :
    ctrlLine mode size name = ctrlHead mode size name ++ [10] := by
  simp [ctrlLine, ctrlHead]

lemma MustCopyAux_shift (a : Nat → Bool) :
    ∀ (fuel r : Nat) (acc : List Nat),
      MustCopyAux a fuel r acc =
        ((MustCopyAux a fuel r []).1, acc ++ (MustCopyAux a fuel r []).2) := by
  intro fuel
  induction fuel with
  | zero =>
    intro r acc
    simp [MustCopyAux]
  | succ f ih =>
    intro r acc
    cases h : a (r + 1) with
    | true => simp [MustCopyAux, h]
    | false =>
      simp only [MustCopyAux, h, Bool.false_eq_true, if_false]
      rw [ih (r + 1) (acc ++ [sleepFor r]), ih (r + 1) ([] ++ [sleepFor r])]
      simp [List.append_assoc]

lemma MustCopyAux_sleep_at (a : Nat → Bool) :
    ∀ (k fuel r : Nat), k < fuel →
      (∀ j, j < k → a (r + 1 + j) = false) →
      ((MustCopyAux a fuel r []).2).get? k = some (sleepFor (r + k)) := by
  intro k
  induction k with
  | zero =>
    intro fuel r hk _
    obtain ⟨f, rfl⟩ : ∃ f, fuel = f + 1 := ⟨fuel - 1, by omega⟩
    cases h : a (r + 1) with
    | true => simp [MustCopyAux, h]
    | false =>
      simp only [MustCopyAux, h, Bool.false_eq_true, if_false]
      rw [MustCopyAux_shift a f (r + 1) ([] ++ [sleepFor r])]
      simp
  | succ k ih =>
    intro fuel r hk hfail
    obtain ⟨f, rfl⟩ : ∃ f, fuel = f + 1 := ⟨fuel - 1, by omega⟩
    have h0 : a (r + 1) = false := by
      have := hfail 0 (by omega)
      simpa using this
    simp only [MustCopyAux, h0, Bool.false_eq_true, if_false]
    rw [MustCopyAux_shift a f (r + 1) ([] ++ [sleepFor r])]
    simp only [List.nil_append, List.singleton_append, List.get?_cons_succ]
    have ih' := ih f (r + 1) (by omega) (fun j hj => by
      have hj1 := hfail (j + 1) (by omega)
      have harr : r + 1 + 1 + j = r + 1 + (j + 1) := by omega
      rw [harr]
      exact hj1)
    have harr2 : r + 1 + k = r + (k + 1) := by omega
    rw [harr2] at ih'
    exact ih'

lemma MustCopyAux_success (a : Nat → Bool) :
    ∀ (fuel r : Nat) (acc : List Nat) (m : Nat) (sl : List Nat),
      MustCopyAux a fuel r acc = (some m, sl) → a m = true ∧ r < m := by
  intro fuel
  induction fuel with
  | zero =>
    intro r acc m sl h
    simp [MustCopyAux] at h
  | succ f ih =>
    intro r acc m sl h
    cases ha : a (r + 1) with
    | true =>
      simp only [MustCopyAux, ha, if_true, Prod.mk.injEq,
        Option.some.injEq] at h
      obtain ⟨h1, _⟩ := h
      constructor
      · rw [← h1]
        exact ha
      · omega
    | false =>
      simp only [MustCopyAux, ha, Bool.false_eq_true, if_false] at h
      have := ih (r + 1) (acc ++ [sleepFor r]) m sl h
      exact ⟨this.1, by omega⟩

lemma MustCopyAux_reaches (a : Nat → Bool) :
    ∀ (fuel r : Nat) (acc : List Nat) (n : Nat), r < n → n ≤ r + fuel →
      a n = true → ∃ m sl, MustCopyAux a fuel r acc = (some m, sl) := by
  intro fuel
  induction fuel with
  | zero =>
    intro r acc n h1 h2 _
    omega
  | succ f ih =>
    intro r acc n h1 h2 h3
    cases ha : a (r + 1) with
    | true =>
      exact ⟨r + 1, acc ++ [sleepFor r], by simp [MustCopyAux, ha]⟩
    | false =>
      have hne : n ≠ r + 1 := by
        intro he
        rw [he] at h3
        rw [h3] at ha
        exact Bool.noConfusion ha
      obtain ⟨m, sl, hm⟩ := ih (r + 1) (acc ++ [sleepFor r]) n (by omega)
        (by omega) h3
      refine ⟨m, sl, ?_⟩
      simpa [MustCopyAux, ha] using hm

lemma TryCopyAux_shift {E : Type} (a : Nat → Option E) (er : Option E) :
    ∀ (fuel r made : Nat) (acc : List Nat),
      TryCopyAux a fuel r er made acc =
        ((TryCopyAux a fuel r er 0 []).1,
         made + (TryCopyAux a fuel r er 0 []).2.1,
         acc ++ (TryCopyAux a fuel r er 0 []).2.2) := by
  intro fuel
  induction fuel with
  | zero =>
    intro r made acc
    simp [TryCopyAux]
  | succ f ih =>
    intro r made acc
    cases ha : a (r + 1) with
    | none => simp [TryCopyAux, ha]
    | some e =>
      simp only [TryCopyAux, ha]
      rw [ih (r + 1) (made + 1) (acc ++ [trySleepFor r]),
        ih (r + 1) (0 + 1) ([] ++ [trySleepFor r])]
      simp [List.append_assoc, Nat.add_assoc]

lemma TryCopyAux_sleep_at {E : Type} (a : Nat → Option E) (er : Option E) :
    ∀ (k fuel r : Nat), k < fuel →
      (∀ j, j < k → (a (r + 1 + j)).isSome = true) →
      ((TryCopyAux a fuel r er 0 []).2.2).get? k =
        some (trySleepFor (r + k)) := by
  intro k
  induction k with
  | zero =>
    intro fuel r hk _
    obtain ⟨f, rfl⟩ : ∃ f, fuel = f + 1 := ⟨fuel - 1, by omega⟩
    cases ha : a (r + 1) with
    | none => simp [TryCopyAux, ha]
    | some e =>
      simp only [TryCopyAux, ha]
      rw [TryCopyAux_shift a er f (r + 1) (0 + 1) ([] ++ [trySleepFor r])]
      simp
  | succ k ih =>
    intro fuel r hk hfail
    obtain ⟨f, rfl⟩ : ∃ f, fuel = f + 1 := ⟨fuel - 1, by omega⟩
    have h0 : (a (r + 1)).isSome = true := by
      have := hfail 0 (by omega)
      simpa using this
    cases ha : a (r + 1) with
    | none =>
      rw [ha] at h0
      exact absurd h0 (by simp)
    | some e =>
      simp only [TryCopyAux, ha]
      rw [TryCopyAux_shift a er f (r + 1) (0 + 1) ([] ++ [trySleepFor r])]
      simp only [List.nil_append, List.singleton_append, List.get?_cons_succ]
      have ih' := ih f (r + 1) (by omega) (fun j hj => by
        have hj1 := hfail (j + 1) (by omega)
        have harr : r + 1 + 1 + j = r + 1 + (j + 1) := by omega
        rw [harr]
        exact hj1)
      have harr2 : r + 1 + k = r + (k + 1) := by omega
      rw [harr2] at ih'
      exact ih'

/-! # Claim theorems -/

/-- C1.  The claim says `TryCopy` with `maxAttempts = 3` and an
always-failing attempt makes exactly 3 attempts and returns `ErrTimes`
with `times = 3` and the last attempt's error.  Evaluating the embedded
loop at that input: it makes 4 attempts (the guard `retryTimes > trys`
fires only once `retryTimes = trys + 1`) and returns
`ErrTimes{times: 4, err: nil}` — the loop body's `err :=` shadows the
function-level `err`, so the error field stays nil. -/
theorem c1_tryCopy_bounded_bug :
    TryCopy (fun n => some (10 * n)) 3 =
      (TryResult.errTimes 4 none, 4, [0, 1, 2, 3]) := by
  decide

/-- C2, counterexample.  With client `1` cached, session creation failing
on it (error 100) and on the freshly redialed client `2` (error 101),
`newSession` does return the second error, but the cached connection is
NOT cleared: the fresh client `2` stays cached, so the next call will try
session creation on it instead of dialing from scratch. -/
theorem c2_counterexample :
    newSession w0 st0 =
      (.error 101, { client := some 2, dials := 6, sesss := 2 }) ∧
    (newSession w0 st0).2.client ≠ none := by
  constructor
  · rfl
  · decide

/-- C2, amended.  If session creation fails on the cached connection, the
redial succeeds, and session creation fails again on the fresh
connection, `newSession` returns the second error and leaves the freshly
redialed connection cached (it is cleared only while between the failed
session call and the redial, or when the redial itself fails). -/
theorem c2_second_failure_keeps_fresh_client (w : World) (st : MgrState)
    (c c2 e1 e2 : Nat)
    (hc : st.client = some c)
    (h1 : w.sessR st.sesss c = .error e1)
    (hd : w.dialR st.dials = .ok c2)
    (h2 : w.sessR (st.sesss + 1) c2 = .error e2) :
    newSession w st =
      (.error e2,
        { client := some c2, dials := st.dials + 1, sesss := st.sesss + 2 }) := by
  simp only [newSession, hc, sessionWithRedial, h1, hd, h2]

/-- C2 witness: the amended theorem applied to the concrete oracle. -/
theorem c2_second_failure_keeps_fresh_client_witness :
    newSession w0 st0 =
      (.error 101, { client := some 2, dials := 6, sesss := 2 }) :=
  c2_second_failure_keeps_fresh_client w0 st0 1 2 100 101 rfl rfl rfl rfl

/-- C3.  For every gzip codec meeting the documented `compress/gzip`
contract — `inflate` round-trips a stream produced by `Write` + `Close`,
and rejects the stream produced by `Write` + `Flush` alone, which lacks
the DEFLATE final block and the gzip footer — the gzip branch of `Copy`
does append `.gz` to the name and does set the size to the actual length
of the bytes it sends, but the payload it sends is the flushed-only
stream, so strict decompression of it fails instead of returning the
original content: the source calls `w.Flush()` and never `w.Close()`. -/
theorem c3_gzip_no_close_bug (codec : GzipCodec) (name : String)
    (r : List Nat)
    (_hclosed : ∀ bs, codec.inflate (codec.closed bs) = some bs)
    (hflushed : ∀ bs, codec.inflate (codec.flushed bs) = none) :
    (gzipAdapt codec name r).1 = name ++ ".gz" ∧
    (gzipAdapt codec name r).2.2 = (gzipAdapt codec name r).2.1.length ∧
    (gzipAdapt codec name r).2.1 = codec.flushed r ∧
    codec.inflate (gzipAdapt codec name r).2.1 = none :=
  ⟨rfl, rfl, rfl, hflushed r⟩

/-- C3 witness: the toy codec satisfies both halves of the documented
contract, and on it the adapter's payload for content `[9]` fails
decompression while name and size behave as claimed. -/
theorem c3_gzip_no_close_bug_witness :
    (gzipAdapt toyCodec "f" [9]).1 = "f.gz" ∧
    (gzipAdapt toyCodec "f" [9]).2.2 = (gzipAdapt toyCodec "f" [9]).2.1.length ∧
    toyCodec.inflate (gzipAdapt toyCodec "f" [9]).2.1 = none := by
  have h := c3_gzip_no_close_bug toyCodec "f" [9]
    (fun bs => rfl) (fun bs => rfl)
  exact ⟨h.1, h.2.1, h.2.2.2⟩

/-- C4, counterexample.  Transferring a 0-byte file named `empty.txt`
through the helper does not produce the claimed control line
`"C0644 0 empty.txt\n"`: the helper passes `os.ModePerm` to `copy`, never
the source file's mode. -/
theorem c4_counterexample :
    (Copy newHelper toyCodec [] 0 "empty.txt").stream ≠
      strBytes "C0644 0 empty.txt\x0a" ++ [0] := by
  decide

/-- C4, amended.  Transferring a 0-byte file named `empty.txt` through
the helper produces exactly the control line `"C0777 0 empty.txt\n"`
(the helper hardcodes mode `os.ModePerm` = 0777) followed immediately by
the single `0x00` trailer byte, with no payload bytes in between. -/
theorem c4_empty_file_stream :
    (Copy newHelper toyCodec [] 0 "empty.txt").stream =
      strBytes "C0777 0 empty.txt\x0a" ++ [0] := by
  decide

/-- C8.  `SetLimitKB 100` yields flags `"-l 800"`; in general
`SetLimitKB k` yields `"-l "` followed by `k*8`; a fresh helper has empty
flags; and the remote command run by `Copy` is
`"scp " ++ flags ++ " -t " ++ destinationDir` (with the destination
directory split from the destination path). -/
theorem c8_rate_limit_flags :
    (SetLimitKB newHelper 100).flags = "-l 800" ∧
    (∀ (st : HelperState) (k : Int),
      (SetLimitKB st k).flags = "-l " ++ toString (k * 8)) ∧
    newHelper.flags = "" ∧
    ∀ (st : HelperState) (codec : GzipCodec) (r : List Nat) (size : Nat)
      (dst : String),
      (Copy st codec r size dst).cmd =
        "scp " ++ st.flags ++ " -t " ++ filepathDir dst := by
  refine ⟨by decide, fun st k => rfl, rfl, fun st codec r size dst => ?_⟩
  by_cases h : st.gzip <;> simp [Copy, copy, h]

/-- C9.  Whenever `openFile` fails — the source path cannot be opened, or
its metadata cannot be read — `MustCopyPath` panics with that error while
`CopyPath` and `TryCopyPath` return it, whatever the downstream copy
functions would do. -/
theorem c9_mustCopyPath_panics {E F : Type} (fsOpen : String → Except E F)
    (fsStat : F → Except E Int) (copyFn : F → Int → String → Option E)
    (tryFn : F → Int → String → Int → Option E)
    (src dst : String) (trys : Int) (e : E)
    (h : openFile fsOpen fsStat src = .error e) :
    MustCopyPath fsOpen fsStat src dst = .panicked e ∧
    CopyPath fsOpen fsStat copyFn src dst = some e ∧
    TryCopyPath fsOpen fsStat tryFn src dst trys = some e := by
  refine ⟨?_, ?_, ?_⟩ <;> simp only [MustCopyPath, CopyPath, TryCopyPath, h]

/-- C9 witness: a filesystem whose open always fails with error 7. -/
theorem c9_mustCopyPath_panics_witness :
    MustCopyPath (E := Nat) (F := Unit) (fun _ => .error 7)
        (fun _ => .ok 0) "a" "b" = .panicked 7 ∧
    CopyPath (E := Nat) (F := Unit) (fun _ => .error 7) (fun _ => .ok 0)
        (fun _ _ _ => none) "a" "b" = some 7 ∧
    TryCopyPath (E := Nat) (F := Unit) (fun _ => .error 7) (fun _ => .ok 0)
        (fun _ _ _ _ => none) "a" "b" 3 = some 7 :=
  c9_mustCopyPath_panics (fun _ => .error 7) (fun _ => .ok 0)
    (fun _ _ _ => none) (fun _ _ _ _ => none) "a" "b" 3 7 rfl

/-- C5.  For every valid `(size, mode, fileName)` triple (a file name
with no newline byte) and a contents source supplying exactly `size`
bytes, the stream `copy` writes to the session's input pipe splits at its
first newline into the control line
`C <octal mode with leading zero> <decimal size> <fileName>` followed by
a remainder that is exactly the `size` content bytes verbatim and then
the single final byte `0x00`. -/
theorem c5_encoder_grammar (size mode : Nat) (fileName : String)
    (contents : List Nat) (destination flags : String)
    (hname : 10 ∉ strBytes fileName)
    (hsize : contents.length = size) :
    splitLine (copy size mode fileName contents destination flags).stream =
      some (ctrlHead mode size fileName, contents ++ [0]) ∧
    (contents ++ [0]).length = size + 1 ∧
    ((copy size mode fileName contents destination flags).stream).getLast? =
      some 0 := by
  have hstream : (copy size mode fileName contents destination flags).stream =
      ctrlHead mode size fileName ++ 10 :: (contents ++ [0]) := by
    simp [copy, ctrlLine_eq_head, List.append_assoc]
  refine ⟨?_, ?_, ?_⟩
  · rw [hstream]
    exact splitLine_append _ _ (ten_not_mem_ctrlHead _ _ _ hname)
  · simp [hsize]
  · rw [hstream, show ctrlHead mode size fileName ++ 10 :: (contents ++ [0]) =
      (ctrlHead mode size fileName ++ 10 :: contents) ++ [0] by simp]
    exact List.getLast?_concat _

/-- C5 witness: a 3-byte transfer with mode 0644 and name `a.txt`. -/
theorem c5_encoder_grammar_witness :
    splitLine (copy 3 420 "a.txt" [1, 2, 3] "/tmp" "").stream =
      some (ctrlHead 420 3 "a.txt", [1, 2, 3] ++ [0]) ∧
    ([1, 2, 3] ++ [0] : List Nat).length = 3 + 1 ∧
    ((copy 3 420 "a.txt" [1, 2, 3] "/tmp" "").stream).getLast? = some 0 :=
  c5_encoder_grammar 3 420 "a.txt" [1, 2, 3] "/tmp" "" (by decide) rfl

/-- C6, counterexample.  In the always-failing `MustCopy` run the delay
recorded before attempt 2 is 1 second, not the 2 the claim's schedule
gives; and in a `TryCopy` run with `trys = 20` the delay before attempt
13 is 12 seconds, not the one-minute ceiling the claim gives for both
loops. -/
theorem c6_counterexample :
    ((MustCopy (fun _ => false) 13).2).get? 1 = some 1 ∧
    ((MustCopy (fun _ => false) 13).2).get? 1 ≠ some (claimedDelay 2) ∧
    ((TryCopy (fun k : Nat => some k) 20).2.2).get? 12 = some 12 ∧
    ((TryCopy (fun k : Nat => some k) 20).2.2).get? 12 ≠
      some (claimedDelay 13) := by
  decide

/-- C6, amended.  In any run reaching attempt `N` (all earlier attempts
failed), the delay before attempt `N` is: zero for `N = 1`; `N - 1`
seconds for `N` from 2 through 11 and one minute beyond in `MustCopy`;
and `N - 1` seconds for every `N ≥ 2` in `TryCopy`, which has no
one-minute ceiling. -/
theorem c6_backoff_schedule {E : Type} (a1 : Nat → Bool)
    (a2 : Nat → Option E) (n fuel : Nat) (trys : Int)
    (hn : 1 ≤ n) (hfuel : n ≤ fuel) (htrys : n ≤ (trys + 1).toNat)
    (hf1 : ∀ j, j + 1 < n → a1 (j + 1) = false)
    (hf2 : ∀ j, j + 1 < n → (a2 (j + 1)).isSome = true) :
    ((MustCopy a1 fuel).2).get? (n - 1) =
      some (if n ≤ 11 then n - 1 else 60) ∧
    ((TryCopy a2 trys).2.2).get? (n - 1) = some (n - 1) := by
  have hf1' : ∀ j, j < n - 1 → a1 (0 + 1 + j) = false := by
    intro j hj
    have h := hf1 j (by omega)
    have he : 0 + 1 + j = j + 1 := by omega
    rw [he]
    exact h
  have hf2' : ∀ j, j < n - 1 → (a2 (0 + 1 + j)).isSome = true := by
    intro j hj
    have h := hf2 j (by omega)
    have he : 0 + 1 + j = j + 1 := by omega
    rw [he]
    exact h
  have h1 := MustCopyAux_sleep_at a1 (n - 1) fuel 0 (by omega) hf1'
  have h2 := TryCopyAux_sleep_at a2 none (n - 1) ((trys + 1).toNat) 0
    (by omega) hf2'
  constructor
  · simp only [MustCopy]
    rw [h1]
    congr 1
    simp only [Nat.zero_add, sleepFor]
    split_ifs <;> omega
  · simp only [TryCopy]
    rw [h2]
    congr 1
    simp only [Nat.zero_add, trySleepFor]
    split_ifs <;> omega

/-- C6 witness: attempt 13 of an always-failing `MustCopy` run waits one
minute, while attempt 13 of a `TryCopy` run with `trys = 20` waits 12
seconds. -/
theorem c6_backoff_schedule_witness :
    ((MustCopy (fun _ => false) 13).2).get? 12 = some 60 ∧
    ((TryCopy (fun k : Nat => some k) 20).2.2).get? 12 = some 12 := by
  have h := c6_backoff_schedule (E := Nat) (fun _ => false)
    (fun k => some k) 13 13 20 (by omega) (by omega) (by decide)
    (fun j hj => rfl) (fun j hj => rfl)
  refine ⟨?_, ?_⟩
  · simpa using h.1
  · simpa using h.2

/-- C7.  `MustCopy` never returns on failure: under an always-failing
attempt function the loop is still running after any number of
iterations, and in general it returns within some iteration bound exactly
when some attempt of `Copy` succeeds. -/
theorem c7_mustCopy_unbounded :
    (∀ fuel, (MustCopy (fun _ => false) fuel).1 = none) ∧
    ∀ (a : Nat → Bool),
      (∃ fuel m sl, MustCopy a fuel = (some m, sl)) ↔
      (∃ n, 1 ≤ n ∧ a n = true) := by
  constructor
  · intro fuel
    rcases hea : MustCopy (fun _ => false) fuel with ⟨fst, snd⟩
    rcases fst with _ | m
    · rfl
    · have := MustCopyAux_success (fun _ => false) fuel 0 [] m snd hea
      simp at this
  · intro a
    constructor
    · rintro ⟨fuel, m, sl, h⟩
      have hs := MustCopyAux_success a fuel 0 [] m sl h
      exact ⟨m, by omega, hs.1⟩
    · rintro ⟨n, h1, h2⟩
      obtain ⟨m, sl, hm⟩ := MustCopyAux_reaches a n 0 [] n (by omega)
        (by omega) h2
      exact ⟨n, m, sl, hm⟩

/-- C7 witness: with an attempt function succeeding at attempt 2, some
bounded observation of the loop sees it return. -/
theorem c7_mustCopy_unbounded_witness :
    ∃ fuel m sl, MustCopy (fun n => n == 2) fuel = (some m, sl) :=
  (c7_mustCopy_unbounded.2 (fun n => n == 2)).mpr ⟨2, by omega, by decide⟩

/-- C10.  The `HostKeyCallback` installed by `Dial` returns nil (accept)
for every hostname, remote address, and presented host key, for every
dialer configuration: no host-key verification is performed. -/
theorem c10_no_hostkey_verification :
    ∀ (d : Dialer) (hostname remote : String) (key : List Nat),
      (dialConfig d).hostKeyCallback hostname remote key = none :=
  fun _ _ _ _ => rfl

end Scp
